import Mathlib

/-!
Shallow embedding of the Mergington High School activities API
(src/src/app.py): activity roster operations (signup, unregister),
the audit-log lifecycle (append, retention cleanup, paginated list,
CSV export, statistics) and the static token-to-role resolver.

Conventions of the embedding:
- the relational store is a `Store` record holding the three tables as
  lists in insertion order, plus the autoincrement counters;
- `datetime.utcnow()` values are passed in explicitly as a `DateTime`
  record (second granularity); comparison of datetimes is the
  lexicographic order on the six fields, realised through the
  injective-on-valid-range mixed-radix encoding `DateTime.key`;
- HTTPException outcomes become the `ApiError` inductive, success the
  `Resp.ok` constructor;
- the module-level environment constant AUDIT_LOG_RETENTION_DAYS is an
  explicit `retention : Int` argument of the operations that read it.
-/

/-- Calendar timestamp at second granularity, mirroring the datetime
values stored in the AuditLog.timestamp column. -/
structure DateTime where
  year : Nat
  month : Nat
  day : Nat
  hour : Nat
  minute : Nat
  second : Nat
deriving DecidableEq

/-- Mixed-radix encoding of a timestamp; on calendar-valid field values
this is exactly the lexicographic (chronological) datetime order used by
the database when comparing and sorting timestamps. -/
def DateTime.key (t : DateTime) : Nat :=
  ((((t.year * 13 + t.month) * 32 + t.day) * 24 + t.hour) * 60 + t.minute) * 60 + t.second

/-- Two-digit zero-padded decimal rendering, as %02d. -/
def pad2 (n : Nat) : List Char :=
  [Nat.digitChar (n / 10 % 10), Nat.digitChar (n % 10)]

/-- Four-digit zero-padded decimal rendering, as %04d. -/
def pad4 (n : Nat) : List Char :=
  [Nat.digitChar (n / 1000 % 10), Nat.digitChar (n / 100 % 10),
   Nat.digitChar (n / 10 % 10), Nat.digitChar (n % 10)]

/-- The ISO-8601 rendering YYYY-MM-DDTHH:MM:SS produced by
datetime.isoformat() on the stored (second-granularity) timestamps. -/
def isoformat (t : DateTime) : String :=
  ⟨pad4 t.year ++ '-' :: pad2 t.month ++ '-' :: pad2 t.day ++
   'T' :: pad2 t.hour ++ ':' :: pad2 t.minute ++ ':' :: pad2 t.second⟩

/-- Days since the civil epoch 1970-01-01 of a Gregorian date
(standard era/year-of-era closed form, floor division). -/
def daysFromCivil (y m d : Int) : Int :=
  let y2 := if m ≤ 2 then y - 1 else y
  let era := y2.ediv 400
  let yoe := y2 - era * 400
  let mp := if 2 < m then m - 3 else m + 9
  let doy := (153 * mp + 2).ediv 5 + d - 1
  let doe := yoe * 365 + yoe.ediv 4 - yoe.ediv 100 + doy
  era * 146097 + doe - 719468

/-- Gregorian date (year, month, day) of a count of days since
1970-01-01 (inverse closed form of daysFromCivil). -/
def civilFromDays (z0 : Int) : Int × Int × Int :=
  let z := z0 + 719468
  let era := z.ediv 146097
  let doe := z - era * 146097
  let yoe := (doe - doe.ediv 1460 + doe.ediv 36524 - doe.ediv 146096).ediv 365
  let y := yoe + era * 400
  let doy := doe - (365 * yoe + yoe.ediv 4 - yoe.ediv 100)
  let mp := (5 * doy + 2).ediv 153
  let d := doy - (153 * mp + 2).ediv 5 + 1
  let m := if mp < 10 then mp + 3 else mp - 9
  (if m ≤ 2 then y + 1 else y, m, d)

/-- Subtraction of a whole number of days from a timestamp, the
embedding of now - timedelta(days=retention); the time of day is
unchanged. -/
def subDays (t : DateTime) (days : Int) : DateTime :=
  let z := daysFromCivil (t.year : Int) (t.month : Int) (t.day : Int) - days
  match civilFromDays z with
  | (y, m, d) => ⟨y.toNat, m.toNat, d.toNat, t.hour, t.minute, t.second⟩

/-- Row of the activities table. -/
structure ActivityR where
  id : Nat
  name : String
  description : String
  schedule : String
  maxParticipants : Int
deriving DecidableEq

/-- Row of the participants table. -/
structure ParticipantR where
  id : Nat
  email : String
  activityId : Nat
deriving DecidableEq

/-- Row of the audit_logs table. -/
structure AuditEntry where
  id : Nat
  timestamp : DateTime
  action : String
  user_email : String
  activity_name : Option String
  details : Option String
  ip_address : Option String
deriving DecidableEq

/-- The relational store: the three tables in insertion order plus the
autoincrement counters for the two tables this code inserts into. -/
structure Store where
  activities : List ActivityR
  participants : List ParticipantR
  audit : List AuditEntry
  nextParticipantId : Nat
  nextAuditId : Nat
deriving DecidableEq

/-- Failure outcomes of the endpoints, one per HTTPException site. -/
inductive ApiError where
  | forbidden
  | notFound
  | conflict
  | capacityExceeded
  | notRegistered
deriving DecidableEq

/-- Endpoint response: a success payload or an HTTP-shaped error. -/
inductive Resp (α : Type) where
  | ok (val : α)
  | err (e : ApiError)
deriving DecidableEq

/-- The static token-to-role table TOKENS of app.py. -/
def TOKENS : List (String × String) :=
  [("student-token-123", "student"),
   ("organizer-token-abc", "organizer"),
   ("admin-token-xyz", "admin")]

/-- Embedding of get_current_role: absent credentials resolve to no
role, otherwise the token is looked up in TOKENS (an unknown token also
resolves to no role, since dict.get returns None). -/
def get_current_role (creds : Option String) : Option String :=
  match creds with
  | none => none
  | some token => TOKENS.lookup token

/-- The Python role gate `if role and role != required`: a present,
non-empty role different from the required one blocks the request. -/
def roleBlocks (required : String) : Option String → Bool
  | none => false
  | some r => !(r == "") && !(r == required)

/-- Embedding of log_audit_event: appends one audit_logs row with the
current timestamp and the next autoincrement id. -/
def log_audit_event (st : Store) (action : String) (user_email : String)
    (activity_name details ip_address : Option String) (now : DateTime) : Store :=
  { st with
    audit := st.audit ++
      [⟨st.nextAuditId, now, action, user_email, activity_name, details, ip_address⟩],
    nextAuditId := st.nextAuditId + 1 }

/-- Embedding of cleanup_old_audit_logs: with a non-positive retention
it is a no-op returning None; otherwise it deletes every audit row with
timestamp strictly before now - timedelta(days=retention) and returns
the number of deleted rows. -/
def cleanup_old_audit_logs (retention : Int) (st : Store) (now : DateTime) :
    Store × Option Nat :=
  if retention ≤ 0 then (st, none)
  else
    let cutoff := subDays now retention
    ({ st with
       audit := st.audit.filter (fun e => !decide (e.timestamp.key < cutoff.key)) },
     some (st.audit.countP (fun e => decide (e.timestamp.key < cutoff.key))))

/-- Embedding of signup_for_activity: role gate, activity lookup,
duplicate check, capacity check, then insert plus audit append. -/
def signup_for_activity (st : Store) (activity_name email : String)
    (role : Option String) (now : DateTime) : Store × Resp String :=
  if roleBlocks ("student") role then (st, .err .forbidden)
  else
    match st.activities.find? (fun a => decide (a.name = activity_name)) with
    | none => (st, .err .notFound)
    | some act =>
      if (st.participants.find?
            (fun p => decide (p.activityId = act.id ∧ p.email = email))).isSome then
        (st, .err .conflict)
      else if act.maxParticipants ≤
          (st.participants.countP (fun p => decide (p.activityId = act.id)) : Int) then
        (st, .err .capacityExceeded)
      else
        let st1 := { st with
          participants := st.participants ++ [⟨st.nextParticipantId, email, act.id⟩],
          nextParticipantId := st.nextParticipantId + 1 }
        (log_audit_event st1 ("signup") email (some activity_name)
           (some ("Student signed up for " ++ activity_name)) none now,
         .ok ("Signed up " ++ email ++ " for " ++ activity_name))

/-- Embedding of unregister_from_activity: role gate, activity lookup,
participant lookup, then delete plus audit append. -/
def unregister_from_activity (st : Store) (activity_name email : String)
    (role : Option String) (now : DateTime) : Store × Resp String :=
  if roleBlocks ("organizer") role then (st, .err .forbidden)
  else
    match st.activities.find? (fun a => decide (a.name = activity_name)) with
    | none => (st, .err .notFound)
    | some act =>
      match st.participants.find?
          (fun p => decide (p.activityId = act.id ∧ p.email = email)) with
      | none => (st, .err .notRegistered)
      | some part =>
        let st1 := { st with
          participants := st.participants.eraseP (fun q => decide (q.id = part.id)) }
        (log_audit_event st1 ("unregister") email (some activity_name)
           (some ("Student unregistered from " ++ activity_name)) none now,
         .ok ("Unregistered " ++ email ++ " from " ++ activity_name))

/-- Descending-timestamp comparison used by order_by(timestamp.desc()). -/
def auditDesc (a b : AuditEntry) : Prop :=
  b.timestamp.key ≤ a.timestamp.key

instance : DecidableRel auditDesc := fun a b =>
  inferInstanceAs (Decidable (b.timestamp.key ≤ a.timestamp.key))

instance : IsTotal AuditEntry auditDesc :=
  ⟨fun a b => le_total b.timestamp.key a.timestamp.key⟩

instance : IsTrans AuditEntry auditDesc :=
  ⟨fun _ _ _ h1 h2 => le_trans h2 h1⟩

/-- Ascending-timestamp comparison used by order_by(timestamp.asc()). -/
def auditAsc (a b : AuditEntry) : Prop :=
  a.timestamp.key ≤ b.timestamp.key

instance : DecidableRel auditAsc := fun a b =>
  inferInstanceAs (Decidable (a.timestamp.key ≤ b.timestamp.key))

/-- Audit rows in descending timestamp order. -/
def sortDesc (l : List AuditEntry) : List AuditEntry :=
  l.insertionSort auditDesc

/-- Audit rows in ascending timestamp order. -/
def sortAsc (l : List AuditEntry) : List AuditEntry :=
  l.insertionSort auditAsc

/-- One serialized log object of the get_audit_logs JSON payload. -/
structure LogJson where
  id : Nat
  timestamp : String
  action : String
  user_email : String
  activity_name : Option String
  details : Option String
  ip_address : Option String
deriving DecidableEq

/-- Serialization of an audit row into the JSON object returned by the
list endpoint (timestamp via isoformat, optional fields kept as null). -/
def toLogJson (e : AuditEntry) : LogJson :=
  ⟨e.id, isoformat e.timestamp, e.action, e.user_email,
   e.activity_name, e.details, e.ip_address⟩

/-- Payload of the get_audit_logs endpoint. -/
structure LogsPage where
  total : Nat
  limit : Nat
  offset : Nat
  logs : List LogJson
deriving DecidableEq

/-- Embedding of get_audit_logs: admin gate, then retention cleanup,
then the page of rows in descending timestamp order (OFFSET applied
before LIMIT) together with the post-cleanup total row count. Returns
the store as mutated by the cleanup. -/
def get_audit_logs (retention : Int) (st : Store) (now : DateTime)
    (role : Option String) (limit offset : Nat) : Store × Resp LogsPage :=
  if role = some ("admin") then
    let st1 := (cleanup_old_audit_logs retention st now).fst
    (st1, .ok ⟨st1.audit.length, limit, offset,
               (((sortDesc st1.audit).drop offset).take limit).map toLogJson⟩)
  else (st, .err .forbidden)

/-- Embedding of the defaulted call of get_audit_logs, with the
signature defaults limit=100, offset=0 of the endpoint applied. -/
def get_audit_logs_default (retention : Int) (st : Store) (now : DateTime)
    (role : Option String) : Store × Resp LogsPage :=
  get_audit_logs retention st now role 100 0

/-- The fixed CSV header row written by export_audit_logs. -/
def csvHeader : List String :=
  ["ID", "Timestamp", "Action", "User Email", "Activity Name", "Details", "IP Address"]

/-- Decimal digit characters of n, most significant first, computed
with explicit fuel so the definition is structural. -/
def natDigits : Nat → Nat → List Char
  | 0, _ => []
  | fuel + 1, n =>
    if n < 10 then [Nat.digitChar n]
    else natDigits fuel (n / 10) ++ [Nat.digitChar (n % 10)]

/-- Decimal rendering of a natural number without leading zeros, the
rendering str applies to the integer id column in the CSV writer. -/
def natRepr (n : Nat) : String :=
  ⟨natDigits (n + 1) n⟩

/-- One CSV data record of export_audit_logs: id as decimal text,
timestamp via isoformat, and each optional column rendered as the empty
string when absent (the `or ""` of the source). -/
def serializeRow (e : AuditEntry) : List String :=
  [natRepr e.id, isoformat e.timestamp, e.action, e.user_email,
   e.activity_name.getD (""), e.details.getD (""), e.ip_address.getD ("")]

/-- Embedding of export_audit_logs: admin gate, then the header row
followed by every audit row (no pagination, no retention cleanup) in
descending timestamp order. The store is not mutated, so only the
response is returned. -/
def export_audit_logs (st : Store) (role : Option String) :
    Resp (List (List String)) :=
  if role = some ("admin") then
    .ok (csvHeader :: (sortDesc st.audit).map serializeRow)
  else .err .forbidden

/-- Distinct action strings of a list of audit rows, in first-occurrence
order, as produced by the GROUP BY of get_audit_stats. -/
def distinctActions (logs : List AuditEntry) : List String :=
  logs.foldl (fun acc e => if e.action ∈ acc then acc else acc ++ [e.action]) []

/-- The per-action row counts of get_audit_stats. -/
def actionCounts (logs : List AuditEntry) : List (String × Nat) :=
  (distinctActions logs).map (fun a => (a, logs.countP (fun e => decide (e.action = a))))

/-- Payload of the get_audit_stats endpoint. -/
structure StatsR where
  total_logs : Nat
  action_counts : List (String × Nat)
  retention_days : Int
  oldest_log : Option String
  newest_log : Option String
deriving DecidableEq

/-- Embedding of get_audit_stats: admin gate, then (without any
retention cleanup) the total row count, the per-action counts, the
configured retention, and the isoformat timestamps of the
chronologically first and last rows (None when the table is empty). -/
def get_audit_stats (retention : Int) (st : Store) (role : Option String) :
    Resp StatsR :=
  if role = some ("admin") then
    .ok ⟨st.audit.length, actionCounts st.audit, retention,
         ((sortAsc st.audit).head?).map (fun e => isoformat e.timestamp),
         ((sortDesc st.audit).head?).map (fun e => isoformat e.timestamp)⟩
  else .err .forbidden

/-- One roster operation for sequential-execution properties. -/
inductive Op where
  | signup (name email : String) (role : Option String) (now : DateTime)
  | unregister (name email : String) (role : Option String) (now : DateTime)
deriving DecidableEq

/-- State reached by one operation (the response is discarded). -/
def applyOp (st : Store) : Op → Store
  | .signup n e r t => (signup_for_activity st n e r t).fst
  | .unregister n e r t => (unregister_from_activity st n e r t).fst

/-- State reached by a sequence of operations run one after the other. -/
def applyOps (st : Store) (ops : List Op) : Store :=
  ops.foldl applyOp st

/-- The capacity invariant: every activity has at most
maxParticipants participant rows. -/
def CapacityBound (st : Store) : Prop :=
  ∀ a ∈ st.activities,
    (st.participants.countP (fun p => decide (p.activityId = a.id)) : Int) ≤ a.maxParticipants

/-- Validity bounds on a timestamp under which the zero-padded ISO
rendering is faithful; every datetime the Python runtime can construct
satisfies them (year at most 9999, the other fields far smaller). -/
def WFDate (t : DateTime) : Prop :=
  t.year < 10000 ∧ t.month < 100 ∧ t.day < 100 ∧
  t.hour < 100 ∧ t.minute < 100 ∧ t.second < 100

instance (t : DateTime) : Decidable (WFDate t) := by
  unfold WFDate; infer_instance

/-- Well-formedness of an audit row for CSV round-tripping: a valid
timestamp, and no optional column holding the present-but-empty string
(which the CSV renders identically to an absent column). -/
def WFEntry (e : AuditEntry) : Prop :=
  WFDate e.timestamp ∧ e.activity_name ≠ some ("") ∧
  e.details ≠ some ("") ∧ e.ip_address ≠ some ("")

instance (e : AuditEntry) : Decidable (WFEntry e) := by
  unfold WFEntry; infer_instance

instance (st : Store) : Decidable (CapacityBound st) := by
  unfold CapacityBound; infer_instance

theorem digitChar_toNat (d : Nat) (hd : d < 10) :
    (Nat.digitChar d).toNat = 48 + d := by
  interval_cases d <;> rfl

theorem digitChar_inj (a b : Nat) (ha : a < 10) (hb : b < 10)
    (h : Nat.digitChar a = Nat.digitChar b) : a = b := by
  have h2 : (Nat.digitChar a).toNat = (Nat.digitChar b).toNat := by rw [h]
  rw [digitChar_toNat a ha, digitChar_toNat b hb] at h2
  omega

theorem isoformat_inj {t1 t2 : DateTime} (h1 : WFDate t1) (h2 : WFDate t2)
    (h : isoformat t1 = isoformat t2) : t1 = t2 := by
  obtain ⟨hy1, hmo1, hd1, hh1, hmi1, hs1⟩ := h1
  obtain ⟨hy2, hmo2, hd2, hh2, hmi2, hs2⟩ := h2
  have hl := congrArg String.data h
  simp only [isoformat, pad4, pad2, List.cons_append, List.nil_append,
    List.cons.injEq, and_true, true_and, Char.isValue] at hl
  obtain ⟨y1, y2, y3, y4, mo1, mo2, d1, d2, hh1e, hh2e, mi1, mi2, s1, s2⟩ := hl
  have ey : t1.year = t2.year := by
    have e1 := digitChar_inj _ _ (by omega) (by omega) y1
    have e2 := digitChar_inj _ _ (by omega) (by omega) y2
    have e3 := digitChar_inj _ _ (by omega) (by omega) y3
    have e4 := digitChar_inj _ _ (by omega) (by omega) y4
    omega
  have emo : t1.month = t2.month := by
    have e1 := digitChar_inj _ _ (by omega) (by omega) mo1
    have e2 := digitChar_inj _ _ (by omega) (by omega) mo2
    omega
  have ed : t1.day = t2.day := by
    have e1 := digitChar_inj _ _ (by omega) (by omega) d1
    have e2 := digitChar_inj _ _ (by omega) (by omega) d2
    omega
  have eh : t1.hour = t2.hour := by
    have e1 := digitChar_inj _ _ (by omega) (by omega) hh1e
    have e2 := digitChar_inj _ _ (by omega) (by omega) hh2e
    omega
  have emi : t1.minute = t2.minute := by
    have e1 := digitChar_inj _ _ (by omega) (by omega) mi1
    have e2 := digitChar_inj _ _ (by omega) (by omega) mi2
    omega
  have es : t1.second = t2.second := by
    have e1 := digitChar_inj _ _ (by omega) (by omega) s1
    have e2 := digitChar_inj _ _ (by omega) (by omega) s2
    omega
  cases t1; cases t2
  simp_all

/-- Decimal value of a digit-character list, the left inverse used to
show the decimal rendering is injective. -/
def parseVal (cs : List Char) : Nat :=
  cs.foldl (fun acc c => acc * 10 + (c.toNat - 48)) 0

theorem parseVal_natDigits :
    ∀ fuel n, n < 10 ^ fuel → parseVal (natDigits fuel n) = n := by
  intro fuel
  induction fuel with
  | zero =>
    intro n hn
    have hz : n = 0 := by omega
    subst hz
    rfl
  | succ fuel ih =>
    intro n hn
    by_cases h10 : n < 10
    · simp only [natDigits, if_pos h10, parseVal, List.foldl_cons, List.foldl_nil]
      rw [digitChar_toNat n h10]
      omega
    · have hdiv : n / 10 < 10 ^ fuel := by
        rw [Nat.div_lt_iff_lt_mul (by omega)]
        calc n < 10 ^ (fuel + 1) := hn
        _ = 10 ^ fuel * 10 := by ring
      have hrec := ih (n / 10) hdiv
      simp only [natDigits, if_neg h10, parseVal, List.foldl_append,
        List.foldl_cons, List.foldl_nil]
      simp only [parseVal] at hrec
      rw [hrec, digitChar_toNat (n % 10) (by omega)]
      omega

theorem natRepr_inj {m n : Nat} (h : natRepr m = natRepr n) : m = n := by
  have hl : natDigits (m + 1) m = natDigits (n + 1) n := congrArg String.data h
  have hm : m < 10 ^ (m + 1) :=
    lt_of_lt_of_le (Nat.lt_pow_self (by norm_num) m)
      (Nat.pow_le_pow_right (by norm_num) (Nat.le_succ m))
  have hn : n < 10 ^ (n + 1) :=
    lt_of_lt_of_le (Nat.lt_pow_self (by norm_num) n)
      (Nat.pow_le_pow_right (by norm_num) (Nat.le_succ n))
  calc m = parseVal (natDigits (m + 1) m) := (parseVal_natDigits _ m hm).symm
  _ = parseVal (natDigits (n + 1) n) := by rw [hl]
  _ = n := parseVal_natDigits _ n hn

theorem getD_empty_inj {a b : Option String} (ha : a ≠ some (""))
    (hb : b ≠ some ("")) (h : a.getD ("") = b.getD ("")) : a = b := by
  cases a <;> cases b <;> simp_all

theorem serializeRow_inj {e1 e2 : AuditEntry} (h1 : WFEntry e1)
    (h2 : WFEntry e2) (h : serializeRow e1 = serializeRow e2) : e1 = e2 := by
  obtain ⟨hd1, ha1, hde1, hip1⟩ := h1
  obtain ⟨hd2, ha2, hde2, hip2⟩ := h2
  simp only [serializeRow, List.cons.injEq, and_true] at h
  obtain ⟨hid, hts, hac, hem, han, hdt, hip⟩ := h
  have eid : e1.id = e2.id := natRepr_inj hid
  have ets : e1.timestamp = e2.timestamp := isoformat_inj hd1 hd2 hts
  have ean : e1.activity_name = e2.activity_name := getD_empty_inj ha1 ha2 han
  have edt : e1.details = e2.details := getD_empty_inj hde1 hde2 hdt
  have eip : e1.ip_address = e2.ip_address := getD_empty_inj hip1 hip2 hip
  cases e1; cases e2
  simp_all

/-- A failed participant lookup rules every row out of the searched
(activity, email) pair. -/
theorem find?_none_part {l : List ParticipantR} {aid : Nat} {e : String}
    (h : l.find? (fun p => decide (p.activityId = aid ∧ p.email = e)) = none) :
    ∀ x ∈ l, x.activityId = aid → ¬ x.email = e := by
  intro x hx hid he
  have hall := List.find?_eq_none.mp h x hx
  simp [hid, he] at hall

/-- Branch analysis of signup_for_activity: either it fails leaving the
store untouched, or every guard passed and it returns the store with
the inserted participant row and the appended audit row. -/
theorem signup_shape (st : Store) (n e : String) (role : Option String)
    (now : DateTime) :
    (∃ er, signup_for_activity st n e role now = (st, .err er)) ∨
    (∃ act, roleBlocks ("student") role = false ∧
       st.activities.find? (fun a => decide (a.name = n)) = some act ∧
       st.participants.find?
         (fun p => decide (p.activityId = act.id ∧ p.email = e)) = none ∧
       ¬ act.maxParticipants ≤
         (st.participants.countP (fun p => decide (p.activityId = act.id)) : Int) ∧
       signup_for_activity st n e role now =
         (log_audit_event
            { st with
              participants := st.participants ++ [⟨st.nextParticipantId, e, act.id⟩],
              nextParticipantId := st.nextParticipantId + 1 }
            ("signup") e (some n) (some ("Student signed up for " ++ n)) none now,
          .ok ("Signed up " ++ e ++ " for " ++ n))) := by
  by_cases hb : roleBlocks ("student") role
  · exact Or.inl ⟨.forbidden, by simp [signup_for_activity, hb]⟩
  · simp only [Bool.not_eq_true] at hb
    rcases hfind : st.activities.find? (fun a => decide (a.name = n)) with _ | act
    · exact Or.inl ⟨.notFound, by simp [signup_for_activity, hb, hfind]⟩
    · rcases hdup : st.participants.find?
          (fun p => decide (p.activityId = act.id ∧ p.email = e)) with _ | part
      · by_cases hcap : act.maxParticipants ≤
            (st.participants.countP (fun p => decide (p.activityId = act.id)) : Int)
        · exact Or.inl ⟨.capacityExceeded, by
            simp [signup_for_activity, hb, hfind, hcap]
            exact find?_none_part hdup⟩
        · exact Or.inr ⟨act, hb, hfind, hdup, hcap, by
            simp [signup_for_activity, hb, hfind, hcap]
            exact find?_none_part hdup⟩
      · exact Or.inl ⟨.conflict, by
          simp [signup_for_activity, hb, hfind]
          intro hall
          have hmem := List.mem_of_find?_eq_some hdup
          have hpred := List.find?_some hdup
          simp only [decide_eq_true_eq] at hpred
          exact absurd hpred.2 (hall part hmem hpred.1)⟩

/-- Branch analysis of unregister_from_activity: either it fails leaving
the store untouched, or every guard passed and it returns the store with
the participant row deleted and the audit row appended. -/
theorem unregister_shape (st : Store) (n e : String) (role : Option String)
    (now : DateTime) :
    (∃ er, unregister_from_activity st n e role now = (st, .err er)) ∨
    (∃ act part, roleBlocks ("organizer") role = false ∧
       st.activities.find? (fun a => decide (a.name = n)) = some act ∧
       st.participants.find?
         (fun p => decide (p.activityId = act.id ∧ p.email = e)) = some part ∧
       unregister_from_activity st n e role now =
         (log_audit_event
            { st with
              participants := st.participants.eraseP (fun q => decide (q.id = part.id)) }
            ("unregister") e (some n) (some ("Student unregistered from " ++ n)) none now,
          .ok ("Unregistered " ++ e ++ " from " ++ n))) := by
  by_cases hb : roleBlocks ("organizer") role
  · exact Or.inl ⟨.forbidden, by simp [unregister_from_activity, hb]⟩
  · simp only [Bool.not_eq_true] at hb
    rcases hfind : st.activities.find? (fun a => decide (a.name = n)) with _ | act
    · exact Or.inl ⟨.notFound, by simp [unregister_from_activity, hb, hfind]⟩
    · rcases hpart : st.participants.find?
          (fun p => decide (p.activityId = act.id ∧ p.email = e)) with _ | part
      · exact Or.inl ⟨.notRegistered, by
          have hpart2 := hpart
          simp only [Bool.decide_and] at hpart2
          simp [unregister_from_activity, hb, hfind, hpart2]⟩
      · exact Or.inr ⟨act, part, hb, hfind, hpart, by
          have hpart2 := hpart
          simp only [Bool.decide_and] at hpart2
          simp [unregister_from_activity, hb, hfind, hpart2]⟩

/-- Reference timestamps and stores used by witnesses and
counterexamples. -/
def tRef : DateTime := ⟨2026, 1, 1, 12, 0, 0⟩

/-- Second reference timestamp, five minutes after tRef. -/
def tRef2 : DateTime := ⟨2026, 1, 1, 12, 5, 0⟩

/-- Reference value of datetime.utcnow() for the cleanup scenarios. -/
def nowRef : DateTime := ⟨2026, 1, 2, 0, 0, 0⟩

/-- A two-seat chess activity. -/
def chessAct : ActivityR := ⟨1, "Chess Club", "Learn chess", "Fridays", 2⟩

/-- Store with the chess activity and one of two seats taken. -/
def stOne : Store := ⟨[chessAct], [⟨1, "michael@x.edu", 1⟩], [], 2, 1⟩

/-- A one-seat chess activity. -/
def fullAct : ActivityR := ⟨1, "Chess Club", "Learn chess", "Fridays", 1⟩

/-- Store with the one-seat chess activity already full. -/
def stFull : Store := ⟨[fullAct], [⟨1, "michael@x.edu", 1⟩], [], 2, 1⟩

/-- An audit row from 2020, far older than any retention cutoff used in
the concrete scenarios. -/
def expiredEntry : AuditEntry :=
  ⟨1, ⟨2020, 1, 1, 9, 30, 0⟩, "signup", "old@x.edu", some ("Chess Club"), none, none⟩

/-- An audit row from the day before nowRef, inside every positive
retention window used in the concrete scenarios. -/
def freshEntry : AuditEntry :=
  ⟨2, ⟨2026, 1, 1, 10, 0, 0⟩, "unregister", "new@x.edu", some ("Chess Club"), none, none⟩

/-- Store whose audit log holds one expired row. -/
def stOld : Store := ⟨[chessAct], [], [expiredEntry], 1, 2⟩

/-- Store whose audit log holds one expired and one fresh row. -/
def stTwo : Store := ⟨[chessAct], [], [expiredEntry, freshEntry], 1, 3⟩

/-- C9: whenever sign_up or unregister fails with any of the error
outcomes, the store is left unchanged: no participant row is inserted
or deleted and no audit row is written. -/
theorem c9_failure_leaves_store_unchanged (st : Store) (n e n2 e2 : String)
    (role role2 : Option String) (now now2 : DateTime) (er er2 : ApiError) :
    ((signup_for_activity st n e role now).snd = .err er →
       (signup_for_activity st n e role now).fst = st) ∧
    ((unregister_from_activity st n2 e2 role2 now2).snd = .err er2 →
       (unregister_from_activity st n2 e2 role2 now2).fst = st) := by
  constructor
  · intro h
    rcases signup_shape st n e role now with ⟨er3, heq⟩ | ⟨act, hb, hf, hd, hc, heq⟩
    · rw [heq]
    · rw [heq] at h
      exact absurd h (by simp)
  · intro h
    rcases unregister_shape st n2 e2 role2 now2 with
      ⟨er3, heq⟩ | ⟨act, part, hb, hf, hp, heq⟩
    · rw [heq]
    · rw [heq] at h
      exact absurd h (by simp)

/-- Witness for C9: a signup for a nonexistent activity fails and
leaves the concrete store unchanged. -/
theorem c9_witness :
    (signup_for_activity stOne ("Absent Club") ("new@x.edu") none tRef).fst = stOne :=
  (c9_failure_leaves_store_unchanged stOne ("Absent Club") ("new@x.edu")
    ("Absent Club") ("new@x.edu") none none tRef tRef .notFound .notFound).1
    (by decide)

/-- C3: after a successful signup of an (email, activity) pair, a
second signup call for the same pair fails with Conflict and returns
the store unchanged, so the participant count of the activity is
unchanged. -/
theorem c3_second_signup_conflict (st st1 : Store) (n e : String)
    (role : Option String) (now now2 : DateTime) (m : String)
    (h : signup_for_activity st n e role now = (st1, .ok m)) :
    signup_for_activity st1 n e role now2 = (st1, .err .conflict) := by
  rcases signup_shape st n e role now with ⟨er, heq⟩ | ⟨act, hb, hfind, hdup, hcap, heq⟩
  · rw [heq] at h
    exact absurd h (by simp)
  · rw [heq] at h
    rw [Prod.mk.injEq] at h
    obtain ⟨h1, -⟩ := h
    subst h1
    have hfind1 : (log_audit_event
        { st with
          participants := st.participants ++ [⟨st.nextParticipantId, e, act.id⟩],
          nextParticipantId := st.nextParticipantId + 1 }
        ("signup") e (some n) (some ("Student signed up for " ++ n)) none now).activities.find?
        (fun a => decide (a.name = n)) = some act := hfind
    simp only [signup_for_activity, hb, Bool.false_eq_true, if_false, hfind1]
    simp [log_audit_event]

/-- Witness for C3: signing the same student up twice for the chess
club makes the second call fail with Conflict on the unchanged store. -/
theorem c3_witness :
    signup_for_activity (signup_for_activity stOne ("Chess Club") ("new@x.edu") none tRef).fst
      ("Chess Club") ("new@x.edu") none tRef2 =
    ((signup_for_activity stOne ("Chess Club") ("new@x.edu") none tRef).fst,
     .err .conflict) :=
  c3_second_signup_conflict stOne _ ("Chess Club") ("new@x.edu") none tRef tRef2
    ("Signed up new@x.edu for Chess Club") (by decide)

/-- C7: every successful signup appends exactly one audit row with
action signup and the matching email and activity name, and every
successful unregister appends exactly one audit row with action
unregister and the matching email and activity name. -/
theorem c7_success_appends_one_audit_row (st st1 st2 : Store) (n e n2 e2 : String)
    (role role2 : Option String) (now now2 : DateTime) (m m2 : String) :
    (signup_for_activity st n e role now = (st1, .ok m) →
       st1.audit = st.audit ++
         [⟨st.nextAuditId, now, "signup", e, some n,
           some ("Student signed up for " ++ n), none⟩]) ∧
    (unregister_from_activity st n2 e2 role2 now2 = (st2, .ok m2) →
       st2.audit = st.audit ++
         [⟨st.nextAuditId, now2, "unregister", e2, some n2,
           some ("Student unregistered from " ++ n2), none⟩]) := by
  constructor
  · intro h
    rcases signup_shape st n e role now with ⟨er, heq⟩ | ⟨act, hb, hf, hd, hc, heq⟩
    · rw [heq] at h
      exact absurd h (by simp)
    · rw [heq] at h
      rw [Prod.mk.injEq] at h
      obtain ⟨h1, -⟩ := h
      rw [← h1]
      simp [log_audit_event]
  · intro h
    rcases unregister_shape st n2 e2 role2 now2 with
      ⟨er, heq⟩ | ⟨act, part, hb, hf, hp, heq⟩
    · rw [heq] at h
      exact absurd h (by simp)
    · rw [heq] at h
      rw [Prod.mk.injEq] at h
      obtain ⟨h1, -⟩ := h
      rw [← h1]
      simp [log_audit_event]

/-- Witness for C7: the concrete successful signup appends exactly the
expected audit row. -/
theorem c7_witness :
    (signup_for_activity stOne ("Chess Club") ("new@x.edu") none tRef).fst.audit =
      stOne.audit ++
        [⟨stOne.nextAuditId, tRef, "signup", "new@x.edu", some ("Chess Club"),
          some ("Student signed up for Chess Club"), none⟩] :=
  (c7_success_appends_one_audit_row stOne _ stOne ("Chess Club") ("new@x.edu")
    ("Chess Club") ("new@x.edu") none none tRef tRef
    ("Signed up new@x.edu for Chess Club") ("x")).1 (by decide)

/-- Counterexample to C6 as stated: on a full existing activity, a
requester whose resolved role is admin gets Forbidden from the role
gate, not CapacityExceeded, so the failure mode does depend on the
requester identity. -/
theorem c6_counterexample :
    (signup_for_activity stFull ("Chess Club") ("new@x.edu") (some ("admin")) tRef).snd
      = .err .forbidden ∧
    (signup_for_activity stFull ("Chess Club") ("new@x.edu") (some ("admin")) tRef).snd
      ≠ .err .capacityExceeded := by
  constructor
  · decide
  · decide

/-- C6 (amended): for a requester that passes the signup role gate
(no resolved role, or role student), signup on an existing activity at
or above capacity by an email not yet registered fails with
CapacityExceeded and leaves the store unchanged. -/
theorem c6_capacity_exceeded (st : Store) (n e : String) (role : Option String)
    (now : DateTime) (act : ActivityR)
    (hrole : role = none ∨ role = some ("student"))
    (hfind : st.activities.find? (fun a => decide (a.name = n)) = some act)
    (hdup : st.participants.find?
      (fun p => decide (p.activityId = act.id ∧ p.email = e)) = none)
    (hcap : act.maxParticipants ≤
      (st.participants.countP (fun p => decide (p.activityId = act.id)) : Int)) :
    signup_for_activity st n e role now = (st, .err .capacityExceeded) := by
  have hb : roleBlocks ("student") role = false := by
    rcases hrole with h | h <;> simp [h, roleBlocks]
  simp [signup_for_activity, hb, hfind, hcap]
  exact find?_none_part hdup

/-- Witness for C6 (amended): an anonymous signup on the full one-seat
chess club fails with CapacityExceeded. -/
theorem c6_witness :
    signup_for_activity stFull ("Chess Club") ("new@x.edu") none tRef =
      (stFull, .err .capacityExceeded) :=
  c6_capacity_exceeded stFull ("Chess Club") ("new@x.edu") none tRef fullAct
    (Or.inl rfl) (by decide) (by decide) (by decide)

/-- C10: with the signature defaults limit=100 and offset=0, the
audit-log list endpoint returns at most 100 serialized rows while its
reported total is the full (post-cleanup) audit row count. -/
theorem c10_default_page_limit (retention : Int) (st : Store) (now : DateTime) :
    ∃ page : LogsPage,
      (get_audit_logs_default retention st now (some ("admin"))).snd = .ok page ∧
      page.limit = 100 ∧ page.offset = 0 ∧ page.logs.length ≤ 100 ∧
      page.total = (cleanup_old_audit_logs retention st now).fst.audit.length := by
  refine ⟨⟨(cleanup_old_audit_logs retention st now).fst.audit.length, 100, 0,
    (((sortDesc (cleanup_old_audit_logs retention st now).fst.audit).drop 0).take 100).map
      toLogJson⟩, ?_, rfl, rfl, ?_, rfl⟩
  · simp [get_audit_logs_default, get_audit_logs]
  · simp only [List.length_map, List.length_take]
    omega

/-- C4: with a positive retention, cleanup keeps exactly the audit rows
whose timestamp is not strictly older than now minus retention days,
deletes exactly the strictly older ones, and returns the number of
deleted rows; with zero or negative retention it is a no-op that
deletes nothing. -/
theorem c4_cleanup_exact (retention : Int) (st : Store) (now : DateTime) :
    (0 < retention →
       (∀ e, e ∈ (cleanup_old_audit_logs retention st now).fst.audit ↔
          e ∈ st.audit ∧ ¬ e.timestamp.key < (subDays now retention).key) ∧
       (cleanup_old_audit_logs retention st now).snd =
         some (st.audit.countP
           (fun e => decide (e.timestamp.key < (subDays now retention).key)))) ∧
    (retention ≤ 0 → cleanup_old_audit_logs retention st now = (st, none)) := by
  constructor
  · intro hpos
    have hne : ¬ retention ≤ 0 := by omega
    constructor
    · intro e
      simp [cleanup_old_audit_logs, hne, List.mem_filter]
    · simp [cleanup_old_audit_logs, hne]
  · intro hle
    simp [cleanup_old_audit_logs, hle]

/-- Witness for C4: with retention 1 the expired 2020 row is deleted
from the concrete store and counted, and with retention -3 the cleanup
is a no-op. -/
theorem c4_witness :
    expiredEntry ∈ stOld.audit ∧
    expiredEntry ∉ (cleanup_old_audit_logs 1 stOld nowRef).fst.audit ∧
    (cleanup_old_audit_logs 1 stOld nowRef).snd = some 1 ∧
    cleanup_old_audit_logs (-3) stOld nowRef = (stOld, none) := by
  have h := c4_cleanup_exact 1 stOld nowRef
  refine ⟨by decide, ?_, ?_, (c4_cleanup_exact (-3) stOld nowRef).2 (by decide)⟩
  · intro hmem
    have h2 := ((h.1 (by decide)).1 expiredEntry).1 hmem
    exact h2.2 (by decide)
  · have h2 := (h.1 (by decide)).2
    rw [h2]
    decide

/-- The Python gate condition is true exactly for a present, non-empty
role different from the required one. -/
theorem roleBlocks_true_iff (req : String) (role : Option String) :
    roleBlocks req role = true ↔ ∃ r, role = some r ∧ r ≠ "" ∧ r ≠ req := by
  cases role with
  | none => simp [roleBlocks]
  | some r => simp [roleBlocks, and_assoc]

/-- The signup endpoint answers Forbidden exactly when the gate
condition holds, whatever the store contents. -/
theorem signup_forbidden_iff (st : Store) (n e : String) (role : Option String)
    (now : DateTime) :
    (signup_for_activity st n e role now).snd = .err .forbidden ↔
      roleBlocks ("student") role = true := by
  constructor
  · intro h
    by_contra hb
    simp only [Bool.not_eq_true] at hb
    unfold signup_for_activity at h
    rw [hb] at h
    rcases hfind : st.activities.find? (fun a => decide (a.name = n)) with _ | act <;>
      simp only [hfind] at h
    · simp at h
    · rcases hdup : st.participants.find?
          (fun p => decide (p.activityId = act.id ∧ p.email = e)) with _ | part <;>
        rw [hdup] at h
      · by_cases hcap : act.maxParticipants ≤
            (st.participants.countP (fun p => decide (p.activityId = act.id)) : Int)
        · simp [hcap] at h
        · simp [hcap] at h
      · simp at h
  · intro hb
    simp [signup_for_activity, hb]

/-- The unregister endpoint answers Forbidden exactly when the gate
condition holds, whatever the store contents. -/
theorem unregister_forbidden_iff (st : Store) (n e : String) (role : Option String)
    (now : DateTime) :
    (unregister_from_activity st n e role now).snd = .err .forbidden ↔
      roleBlocks ("organizer") role = true := by
  constructor
  · intro h
    by_contra hb
    simp only [Bool.not_eq_true] at hb
    unfold unregister_from_activity at h
    rw [hb] at h
    rcases hfind : st.activities.find? (fun a => decide (a.name = n)) with _ | act <;>
      simp only [hfind] at h
    · simp at h
    · rcases hdup : st.participants.find?
          (fun p => decide (p.activityId = act.id ∧ p.email = e)) with _ | part <;>
        rw [hdup] at h
      · simp at h
      · simp at h
  · intro hb
    simp [unregister_from_activity, hb]

/-- C5: an absent bearer token or a token outside the static table
resolves to no role rather than an error, and the signup and unregister
role gates answer Forbidden exactly for a present (non-empty) role
different from the required one, so a caller with no resolved role
passes both gates. -/
theorem c5_permissive_role_gate (t : String) (st : Store) (n e : String)
    (role : Option String) (now : DateTime)
    (hlk : TOKENS.lookup t = none) :
    get_current_role none = none ∧
    get_current_role (some t) = none ∧
    ((signup_for_activity st n e role now).snd = .err .forbidden ↔
       ∃ r, role = some r ∧ r ≠ "" ∧ r ≠ "student") ∧
    ((unregister_from_activity st n e role now).snd = .err .forbidden ↔
       ∃ r, role = some r ∧ r ≠ "" ∧ r ≠ "organizer") := by
  refine ⟨rfl, ?_, ?_, ?_⟩
  · simp [get_current_role, hlk]
  · rw [signup_forbidden_iff, roleBlocks_true_iff]
  · rw [unregister_forbidden_iff, roleBlocks_true_iff]

/-- Witness for C5: an unknown token resolves to no role, an anonymous
signup is not rejected by the gate, and an admin-role signup is. -/
theorem c5_witness :
    get_current_role (some ("bogus-token")) = none ∧
    (signup_for_activity stOne ("Chess Club") ("new@x.edu") (some ("admin")) tRef).snd
      = .err .forbidden := by
  have h := c5_permissive_role_gate ("bogus-token") stOne ("Chess Club") ("new@x.edu")
    (some ("admin")) tRef (by decide)
  exact ⟨h.2.1, h.2.2.1.2 ⟨"admin", rfl, by decide, by decide⟩⟩

/-- Neither roster operation ever changes the activities table. -/
theorem applyOp_activities (st : Store) (o : Op) :
    (applyOp st o).activities = st.activities := by
  cases o with
  | signup n e r t =>
    rcases signup_shape st n e r t with ⟨er, heq⟩ | ⟨act, hb, hf, hd, hc, heq⟩ <;>
      simp [applyOp, heq, log_audit_event]
  | unregister n e r t =>
    rcases unregister_shape st n e r t with ⟨er, heq⟩ | ⟨act, part, hb, hf, hp, heq⟩ <;>
      simp [applyOp, heq, log_audit_event]

/-- A single signup preserves the capacity bound: it only inserts after
checking the current count against the limit of the activity found by
name (distinct table ids make that activity unique). -/
theorem signup_preserves_bound (st : Store) (n e : String) (role : Option String)
    (now : DateTime) (hnd : (st.activities.map (fun a => a.id)).Nodup)
    (hcb : CapacityBound st) :
    CapacityBound (signup_for_activity st n e role now).fst := by
  rcases signup_shape st n e role now with ⟨er, heq⟩ | ⟨act, hb, hfind, hdup, hcap, heq⟩
  · rw [heq]
    exact hcb
  · rw [heq]
    intro a ha
    have hmemact : act ∈ st.activities := List.mem_of_find?_eq_some hfind
    simp only [log_audit_event]
    rw [List.countP_append]
    by_cases hid : act.id = a.id
    · have haea : a = act :=
        List.inj_on_of_nodup_map hnd ha hmemact (by rw [hid])
      subst haea
      have hone : List.countP (fun p => decide (p.activityId = a.id))
          [(⟨st.nextParticipantId, e, a.id⟩ : ParticipantR)] = 1 := by simp
      rw [hone]
      have hlt := hcap
      push_cast
      omega
    · have hzero : List.countP (fun p => decide (p.activityId = a.id))
          [(⟨st.nextParticipantId, e, act.id⟩ : ParticipantR)] = 0 := by
        simp [hid]
      rw [hzero]
      simpa using hcb a ha

/-- A single unregister preserves the capacity bound: deleting a row
can only lower participant counts. -/
theorem unregister_preserves_bound (st : Store) (n e : String)
    (role : Option String) (now : DateTime) (hcb : CapacityBound st) :
    CapacityBound (unregister_from_activity st n e role now).fst := by
  rcases unregister_shape st n e role now with
    ⟨er, heq⟩ | ⟨act, part, hb, hf, hp, heq⟩
  · rw [heq]
    exact hcb
  · rw [heq]
    intro a ha
    simp only [log_audit_event]
    have hsub : (st.participants.eraseP (fun q => decide (q.id = part.id))).countP
        (fun p => decide (p.activityId = a.id)) ≤
        st.participants.countP (fun p => decide (p.activityId = a.id)) :=
      List.Sublist.countP_le _ (List.eraseP_sublist _)
    have hle := hcb a ha
    have hcast : ((st.participants.eraseP (fun q => decide (q.id = part.id))).countP
        (fun p => decide (p.activityId = a.id)) : Int) ≤
        (st.participants.countP (fun p => decide (p.activityId = a.id)) : Int) := by
      exact_mod_cast hsub
    exact le_trans hcast hle

/-- C2: starting from a store with distinct activity ids that satisfies
the capacity bound, any sequence of sequentially executed signup and
unregister operations keeps every activity at or below its
max_participants. -/
theorem c2_capacity_invariant (st : Store) (ops : List Op)
    (hnd : (st.activities.map (fun a => a.id)).Nodup)
    (hcb : CapacityBound st) :
    CapacityBound (applyOps st ops) := by
  induction ops generalizing st with
  | nil => exact hcb
  | cons o rest ih =>
    have hstep : CapacityBound (applyOp st o) := by
      cases o with
      | signup n e r t => exact signup_preserves_bound st n e r t hnd hcb
      | unregister n e r t => exact unregister_preserves_bound st n e r t hcb
    have hnd2 : ((applyOp st o).activities.map (fun a => a.id)).Nodup := by
      rw [applyOp_activities]
      exact hnd
    exact ih (applyOp st o) hnd2 hstep

/-- Operation sequence used by the C2 witness: successful signups, a
duplicate, an overflowing signup, and an unregister. -/
def opsW : List Op :=
  [.signup ("Chess Club") ("new@x.edu") none tRef,
   .signup ("Chess Club") ("new@x.edu") none tRef2,
   .signup ("Chess Club") ("third@x.edu") (some ("student")) tRef2,
   .unregister ("Chess Club") ("michael@x.edu") (some ("organizer")) tRef2,
   .signup ("Chess Club") ("fourth@x.edu") none tRef2]

/-- Witness for C2: the concrete two-seat store still satisfies the
capacity bound after the concrete operation sequence. -/
theorem c2_witness : CapacityBound (applyOps stOne opsW) :=
  c2_capacity_invariant stOne opsW (by decide) (by decide)

/-- Counterexample to C1 as stated: on a store holding one expired audit
row, the CSV export and the statistics endpoint answer differently on
the unpurged store and on the purged store, so what they return is not
the post-purge contents of the audit log: neither operation invokes the
cleanup. -/
theorem c1_counterexample :
    export_audit_logs stOld (some ("admin")) ≠
      export_audit_logs ((cleanup_old_audit_logs 1 stOld nowRef).fst) (some ("admin")) ∧
    get_audit_stats 1 stOld (some ("admin")) ≠
      get_audit_stats 1 ((cleanup_old_audit_logs 1 stOld nowRef).fst) (some ("admin")) := by
  constructor
  · decide
  · decide

/-- C1 (amended): only the audit-log list operation runs the retention
cleanup at its start, so its page and total reflect the post-purge rows;
the CSV export and the statistics are computed from the audit table as
it stands, expired rows included, and mutate nothing. -/
theorem c1_purge_only_before_list (retention : Int) (st : Store) (now : DateTime)
    (limit offset : Nat) :
    (get_audit_logs retention st now (some ("admin")) limit offset).fst =
      (cleanup_old_audit_logs retention st now).fst ∧
    (get_audit_logs retention st now (some ("admin")) limit offset).snd =
      .ok ⟨(cleanup_old_audit_logs retention st now).fst.audit.length, limit, offset,
           (((sortDesc (cleanup_old_audit_logs retention st now).fst.audit).drop
              offset).take limit).map toLogJson⟩ ∧
    export_audit_logs st (some ("admin")) =
      .ok (csvHeader :: (sortDesc st.audit).map serializeRow) ∧
    (∀ e ∈ st.audit, serializeRow e ∈ (sortDesc st.audit).map serializeRow) ∧
    get_audit_stats retention st (some ("admin")) =
      .ok ⟨st.audit.length, actionCounts st.audit, retention,
           ((sortAsc st.audit).head?).map (fun x => isoformat x.timestamp),
           ((sortDesc st.audit).head?).map (fun x => isoformat x.timestamp)⟩ := by
  refine ⟨?_, ?_, ?_, ?_, ?_⟩
  · simp [get_audit_logs]
  · simp [get_audit_logs]
  · simp [export_audit_logs]
  · intro e he
    exact List.mem_map_of_mem _
      ((List.perm_insertionSort auditDesc st.audit).symm.subset he)
  · simp [get_audit_stats]

/-- Witness for C1 (amended): the expired row of the concrete store
still appears in the rows the export emits. -/
theorem c1_witness :
    serializeRow expiredEntry ∈ (sortDesc stOld.audit).map serializeRow :=
  (c1_purge_only_before_list 1 stOld nowRef 100 0).2.2.2.1 expiredEntry (by decide)

/-- C8: for an admin caller the CSV export is the fixed 7-column header
followed by one serialized record per audit row with no pagination, the
emitted rows are a permutation of the audit table sorted by descending
timestamp, and on well-formed rows the serialization (isoformat
timestamps, empty string for absent optional columns) is injective, so
parsing the CSV recovers exactly the audit-log contents. -/
theorem c8_csv_export_roundtrip (st : Store) (hwf : ∀ e ∈ st.audit, WFEntry e) :
    export_audit_logs st (some ("admin")) =
      .ok (csvHeader :: (sortDesc st.audit).map serializeRow) ∧
    (sortDesc st.audit).Perm st.audit ∧
    List.Sorted auditDesc (sortDesc st.audit) ∧
    csvHeader = ["ID", "Timestamp", "Action", "User Email", "Activity Name",
                 "Details", "IP Address"] ∧
    (∀ e1 ∈ st.audit, ∀ e2 ∈ st.audit, serializeRow e1 = serializeRow e2 → e1 = e2) := by
  refine ⟨by simp [export_audit_logs], List.perm_insertionSort auditDesc st.audit,
    List.sorted_insertionSort auditDesc st.audit, rfl, ?_⟩
  intro e1 h1 e2 h2 hser
  exact serializeRow_inj (hwf e1 h1) (hwf e2 h2) hser

/-- Witness for C8: the concrete two-row store exports the header plus
its serialized rows, and the emitted rows are a permutation of the
audit table. -/
theorem c8_witness :
    export_audit_logs stTwo (some ("admin")) =
      .ok (csvHeader :: (sortDesc stTwo.audit).map serializeRow) ∧
    (sortDesc stTwo.audit).Perm stTwo.audit :=
  ⟨(c8_csv_export_roundtrip stTwo (by decide)).1,
   (c8_csv_export_roundtrip stTwo (by decide)).2.1⟩
